import Mathlib

/-!
Verification of the GPU code verifier pass (`src/pass/verify_gpu_code.cc`).

The pass walks a statement tree once with a stateful visitor
(`GPUCodeVerifier`), accounting thread extents and memory allocations per
kernel region (delimited by `ProducerConsumer` markers) and comparing them
against six configured hardware limits.  This file gives a shallow embedding
of that visitor and proves properties of it.

Machine arithmetic: the C++ counters and limits are `size_t` (64-bit
unsigned), so counter arithmetic is modelled on `Nat` modulo `2 ^ 64`, and
`static_cast<size_t>` applied to an `int64_t` is modelled as `Int` reduction
modulo `2 ^ 64`.  The fatal conditions (a failed `CHECK`, and a null-pointer
dereference from a failed `as<...>()` cast) are modelled as values of an
error type carried in `Except`.
-/

namespace TVM

/-- Modulus of `size_t` arithmetic on the target platform. -/
def U64 : Nat := 2 ^ 64

/-- The cast `static_cast<size_t>` applied to a signed 64-bit value (two's complement). -/
def toUSize (v : Int) : Nat := (v % (2 ^ 64 : Int)).toNat

/-- Addition on `size_t`. -/
def uadd (a b : Nat) : Nat := (a + b) % U64

/-- Multiplication on `size_t`. -/
def umul (a b : Nat) : Nat := (a * b) % U64

/-- The default value used by `VerifyGPUCode` for absent limits. -/
def INT64_MAX : Int := 2 ^ 63 - 1

/-- The expression forms the pass inspects: constant integers (`IntImm`),
constant strings (`StringImm`), and everything else. -/
inductive Expr where
  | IntImm (value : Int)
  | StringImm (value : String)
  | OtherExpr
deriving DecidableEq

/-- True iff the expression is a constant integer (`as<IntImm>()` succeeds). -/
def Expr.isIntImm : Expr → Bool
  | .IntImm _ => true
  | _ => false

/-- True iff the expression is a constant string (`as<StringImm>()` succeeds). -/
def Expr.isStringImm : Expr → Bool
  | .StringImm _ => true
  | _ => false

/-- The node reference carried by an attribute statement: a plain variable
(identified by its address, modelled as `Nat`), an iteration variable with its
`name_hint`, or some other node kind. -/
inductive NodeRef where
  | Variable (id : Nat)
  | IterVar (id : Nat) (name_hint : String)
  | OtherNode
deriving DecidableEq

/-- The cast `op->node.as<tvm::Variable>()`: the variable pointer, or null (`none`). -/
def NodeRef.asVariable : NodeRef → Option Nat
  | .Variable i => some i
  | _ => none

/-- True iff the node is an iteration variable (`as<IterVarNode>()` succeeds). -/
def NodeRef.isIterVar : NodeRef → Bool
  | .IterVar _ _ => true
  | _ => false

/-- The attribute keys the pass distinguishes. -/
inductive AttrKey where
  | storage_scope
  | thread_extent
  | other_attr
deriving DecidableEq

/-- The statement-tree node kinds the pass treats specially, plus a generic
binary sequencing node (`Block`) and a leaf (`Evaluate`) standing for every
other node kind, whose visitation just recurses into children. -/
inductive Stmt where
  | ProducerConsumer ( is_producer : Bool) (body : Stmt)
  | Allocate (buffer_var : Nat) (type_bytes : Nat) (constant_allocation_size : Int) (body : Stmt)
  | AttrStmt (attr_key : AttrKey) (node : NodeRef) (value : Expr) (body : Stmt)
  | Block (first rest : Stmt)
  | Evaluate
deriving DecidableEq

/-- The fatal conditions of the pass: a null-pointer dereference after a
failed `as<...>()` cast, and a failed `CHECK`. -/
inductive VError where
  | nullDeref
  | checkFail
deriving DecidableEq

deriving instance DecidableEq for Except

/-- The six resolved limits, as `size_t` values (fields
`max_..._` of `GPUCodeVerifier` after the casts in `Verify`). -/
structure Limits where
  max_local_memory_per_block : Nat
  max_shared_memory_per_block : Nat
  max_thread_per_block : Nat
  max_thread_x : Nat
  max_thread_y : Nat
  max_thread_z : Nat
deriving DecidableEq

/-- The mutable state of `GPUCodeVerifier`.  The buffer sets hold the results
of `op->node.as<tvm::Variable>()`, which may be null (`none`). -/
structure VState where
  nest_level : Int
  visited_local_buffers : List (Option Nat)
  visited_shared_buffers : List (Option Nat)
  visited_threads : List String
  local_memory_per_block : Nat
  shared_memory_per_block : Nat
  thread_per_block : Nat
  valid : Bool
deriving DecidableEq

/-- The reset `GPUCodeVerifier::Reset_()`: clears the classification sets and the
thread-name set, zeroes both memory counters and resets the thread product. -/
def Reset_ (s : VState) : VState :=
  { s with
    visited_local_buffers := []
    visited_shared_buffers := []
    local_memory_per_block := 0
    shared_memory_per_block := 0
    visited_threads := []
    thread_per_block := 1 }

/-- The thread-extent accounting of `Visit_(const AttrStmt*)`, after the
iteration variable's name and the constant extent have been read: a
`threadIdx` name not yet counted is recorded, its extent is multiplied into
the thread product, and the per-dimension bound check is ANDed into the
verdict. -/
def threadExtentStep (lim : Limits) (name : String) (v : Int) (s : VState) : VState :=
  if name = "threadIdx.x" ∨ name = "threadIdx.y" ∨ name = "threadIdx.z" then
    if name ∈ s.visited_threads then s
    else
      let length := toUSize v
      let s1 := { s with
        visited_threads := name :: s.visited_threads
        thread_per_block := umul s.thread_per_block length }
      if name = "threadIdx.x" then
        { s1 with valid := s1.valid && decide (length ≤ lim.max_thread_x) }
      else if name = "threadIdx.y" then
        { s1 with valid := s1.valid && decide (length ≤ lim.max_thread_y) }
      else if name = "threadIdx.z" then
        { s1 with valid := s1.valid && decide (length ≤ lim.max_thread_z) }
      else s1
  else s

/-- The attribute handling performed by `Visit_(const AttrStmt*)` before
recursing into the body.  A `storage_scope` attribute whose value is not a
`StringImm` dereferences null; a `thread_extent` attribute whose node is not
an `IterVarNode` dereferences null, and one whose value is not an `IntImm`
fails the `CHECK`. -/
def attrStep (lim : Limits) (key : AttrKey) (node : NodeRef) (value : Expr)
    (s : VState) : Except VError VState :=
  match key with
  | .storage_scope =>
    match value with
    | .StringImm str =>
      if str = "local" then
        .ok { s with visited_local_buffers := node.asVariable :: s.visited_local_buffers }
      else if str = "shared" then
        .ok { s with visited_shared_buffers := node.asVariable :: s.visited_shared_buffers }
      else .ok s
    | _ => .error .nullDeref
  | .thread_extent =>
    match node with
    | .IterVar _ name =>
      match value with
      | .IntImm v => .ok (threadExtentStep lim name v s)
      | _ => .error .checkFail
    | _ => .error .nullDeref
  | .other_attr => .ok s

/-- The allocation accounting of `Visit_(const Allocate*)`, performed after
recursing into the subtree: the byte size is added to the local counter when
the buffer variable is in the local set, else to the shared counter when it is
in the shared set, else to neither. -/
def allocStep (buf : Nat) (type_bytes : Nat) (csize : Int) (s : VState) : VState :=
  let size := umul (toUSize csize) type_bytes
  if some buf ∈ s.visited_local_buffers then
    { s with local_memory_per_block := uadd s.local_memory_per_block size }
  else if some buf ∈ s.visited_shared_buffers then
    { s with shared_memory_per_block := uadd s.shared_memory_per_block size }
  else s

/-- The bound checks performed by `Visit_(const ProducerConsumer*)` when the
traversal returns to nest depth 0: the three comparisons are ANDed into the
running verdict. -/
def kernelCheck (lim : Limits) (s : VState) : VState :=
  let v1 := s.valid && decide (s.thread_per_block ≤ lim.max_thread_per_block)
  let v2 := v1 && decide (s.local_memory_per_block ≤ lim.max_local_memory_per_block)
  let v3 := v2 && decide (s.shared_memory_per_block ≤ lim.max_shared_memory_per_block)
  { s with valid := v3 }

/-- The visitor traversal (`GPUCodeVerifier::Visit`), dispatching on the node
kind exactly as the three `Visit_` overloads and the generic recursion do. -/
def visit (lim : Limits) : Stmt → VState → Except VError VState
  | .ProducerConsumer p body, s =>
    let s0 := if s.nest_level = 0 then Reset_ s else s
    let r :=
      if p then
        match visit lim body { s0 with nest_level := s0.nest_level + 1 } with
        | .error e => .error e
        | .ok s' => .ok { s' with nest_level := s'.nest_level - 1 }
      else visit lim body s0
    match r with
    | .error e => .error e
    | .ok s' => .ok (if s'.nest_level = 0 then kernelCheck lim s' else s')
  | .Allocate buf tb cs body, s =>
    match visit lim body s with
    | .error e => .error e
    | .ok s' => .ok (allocStep buf tb cs s')
  | .AttrStmt key node value body, s =>
    match attrStep lim key node value s with
    | .error e => .error e
    | .ok s' => visit lim body s'
  | .Block a b, s =>
    match visit lim a s with
    | .error e => .error e
    | .ok s' => visit lim b s'
  | .Evaluate, s => .ok s

/-- The traversal between the depth-0 entry reset and the depth-0 exit check
of a `ProducerConsumer` node: a producer marker increments the nest level
around the recursion into the body, a non-producer marker recurses as is. -/
def kernelBody (lim : Limits) (p : Bool) (body : Stmt) (s : VState) :
    Except VError VState :=
  if p then
    match visit lim body { s with nest_level := s.nest_level + 1 } with
    | .error e => .error e
    | .ok s' => .ok { s' with nest_level := s'.nest_level - 1 }
  else visit lim body s

/-- The casts `static_cast<size_t>(...)` performed at the start of
`GPUCodeVerifier::Verify`. -/
def mkLimits (ml ms mt mx my mz : Int) : Limits :=
  ⟨toUSize ml, toUSize ms, toUSize mt, toUSize mx, toUSize my, toUSize mz⟩

/-- The state at the start of `Verify`: `nest_level_{0}`, `valid_{true}`, and
the remaining fields initialized by the call to `Reset_()`. -/
def initState : VState := Reset_ ⟨0, [], [], [], 0, 0, 0, true⟩

/-- The driver `GPUCodeVerifier::Verify`: reset, traverse once, return the verdict. -/
def Verify (stmt : Stmt) (ml ms mt mx my mz : Int) : Except VError Bool :=
  match visit (mkLimits ml ms mt mx my mz) stmt initState with
  | .error e => .error e
  | .ok s => .ok s.valid

/-- Lookup in the constraint map (`constraints.find(key)`). -/
def findConstraint : List (String × Expr) → String → Option Expr
  | [], _ => none
  | (k, v) :: rest, key => if k = key then some v else findConstraint rest key

/-- The `get_int` lambda of `VerifyGPUCode`: a present entry is read through
`as<IntImm>()->value` (null dereference when it is not an `IntImm`), an
absent entry yields the default. -/
def get_int (constraints : List (String × Expr)) (key : String) (d : Int) :
    Except VError Int :=
  match findConstraint constraints key with
  | some e =>
    match e with
    | .IntImm v => .ok v
    | _ => .error .nullDeref
  | none => .ok d

/-- The pass entry `VerifyGPUCode`: resolve the six limits (defaulting to `INT64_MAX`) and
run the verifier. -/
def VerifyGPUCode (stmt : Stmt) (constraints : List (String × Expr)) :
    Except VError Bool :=
  match get_int constraints ("max_local_memory_per_block") INT64_MAX with
  | .error e => .error e
  | .ok ml =>
    match get_int constraints ("max_shared_memory_per_block") INT64_MAX with
    | .error e => .error e
    | .ok ms =>
      match get_int constraints ("max_thread_per_block") INT64_MAX with
      | .error e => .error e
      | .ok mt =>
        match get_int constraints ("max_thread_x") INT64_MAX with
        | .error e => .error e
        | .ok mx =>
          match get_int constraints ("max_thread_y") INT64_MAX with
          | .error e => .error e
          | .ok my =>
            match get_int constraints ("max_thread_z") INT64_MAX with
            | .error e => .error e
            | .ok mz => Verify stmt ml ms mt mx my mz

/-- The state with its verdict flag replaced. -/
def setValid (s : VState) (v : Bool) : VState := { s with valid := v }

/-- The per-dimension limit selected by the `if`/`else if` chain of the
thread-extent branch for a `threadIdx` name. -/
def dimLimit (lim : Limits) (name : String) : Nat :=
  if name = "threadIdx.x" then lim.max_thread_x
  else if name = "threadIdx.y" then lim.max_thread_y
  else lim.max_thread_z

/-- True iff the tree contains no `ProducerConsumer` node. -/
def noKernel : Stmt → Bool
  | .ProducerConsumer _ _ => false
  | .Allocate _ _ _ body => noKernel body
  | .AttrStmt _ _ _ body => noKernel body
  | .Block a b => noKernel a && noKernel b
  | .Evaluate => true

/-- True iff every well-formed thread-extent attribute in the tree declares a
`threadIdx` extent within the corresponding per-dimension limit. -/
def threadExtentsOk (lim : Limits) : Stmt → Bool
  | .ProducerConsumer _ body => threadExtentsOk lim body
  | .Allocate _ _ _ body => threadExtentsOk lim body
  | .AttrStmt key node value body =>
    (match key, node, value with
     | .thread_extent, .IterVar _ name, .IntImm v =>
       if name = "threadIdx.x" ∨ name = "threadIdx.y" ∨ name = "threadIdx.z" then
         decide (toUSize v ≤ dimLimit lim name)
       else true
     | _, _, _ => true) && threadExtentsOk lim body
  | .Block a b => threadExtentsOk lim a && threadExtentsOk lim b
  | .Evaluate => true

/-- Removes every `Allocate` node and every storage-scope attribute that is
not enclosed by a `ProducerConsumer` node, splicing their bodies in place;
subtrees below a `ProducerConsumer` marker are kept unchanged. -/
def stripOutside : Stmt → Stmt
  | .ProducerConsumer p body => .ProducerConsumer p body
  | .Allocate _ _ _ body => stripOutside body
  | .AttrStmt key node value body =>
    match key with
    | .storage_scope => stripOutside body
    | _ => .AttrStmt key node value (stripOutside body)
  | .Block a b => .Block (stripOutside a) (stripOutside b)
  | .Evaluate => .Evaluate

/-- True iff every storage-scope attribute not enclosed by a
`ProducerConsumer` node carries a `StringImm` value (the input contract the
classification step relies on). -/
def outsideScopesWF : Stmt → Bool
  | .ProducerConsumer _ _ => true
  | .Allocate _ _ _ body => outsideScopesWF body
  | .AttrStmt key _ value body =>
    (match key with
     | .storage_scope => value.isStringImm
     | _ => true) && outsideScopesWF body
  | .Block a b => outsideScopesWF a && outsideScopesWF b
  | .Evaluate => true

/-- Agreement of two verifier states on every field except the two buffer
classification sets and the two memory counters. -/
def MemEquiv (s1 s2 : VState) : Prop :=
  s1.nest_level = s2.nest_level ∧ s1.visited_threads = s2.visited_threads ∧
    s1.thread_per_block = s2.thread_per_block ∧ s1.valid = s2.valid

/-- Lifts `MemEquiv` to traversal results: both fail with the same error, or
both succeed with `MemEquiv` final states. -/
def RelOut : Except VError VState → Except VError VState → Prop
  | .error e, .error e' => e = e'
  | .ok a, .ok b => MemEquiv a b
  | _, _ => False

/-- A kernel region declaring `threadIdx.x` extent 32 and `threadIdx.y`
extent 8. -/
def kernelXY : Stmt :=
  .ProducerConsumer true
    (.AttrStmt .thread_extent (.IterVar 0 "threadIdx.x") (.IntImm 32)
      (.AttrStmt .thread_extent (.IterVar 1 "threadIdx.y") (.IntImm 8) .Evaluate))

/-- A tree with no kernel marker whose `threadIdx.x` extent exceeds
`max_thread_x`. -/
def badNoKernelTree : Stmt :=
  .AttrStmt .thread_extent (.IterVar 0 "threadIdx.x") (.IntImm 2) .Evaluate

/-- A tree with no kernel marker holding a classified allocation and a
`threadIdx.x` extent declaration. -/
def noKernelTree : Stmt :=
  .Block
    (.AttrStmt .storage_scope (.Variable 0) (.StringImm ("local"))
      (.Allocate 0 8 999 .Evaluate))
    (.AttrStmt .thread_extent (.IterVar 1 "threadIdx.x") (.IntImm 3) .Evaluate)

/-- A kernel region declaring the same `threadIdx.x` extent 16 twice. -/
def dupKernel : Stmt :=
  .ProducerConsumer true
    (.AttrStmt .thread_extent (.IterVar 0 "threadIdx.x") (.IntImm 16)
      (.AttrStmt .thread_extent (.IterVar 1 "threadIdx.x") (.IntImm 16) .Evaluate))

/-- A kernel region declaring `threadIdx.x` extent 16 and then again with a
different, far larger extent. -/
def dupKernelDiff : Stmt :=
  .ProducerConsumer true
    (.AttrStmt .thread_extent (.IterVar 0 "threadIdx.x") (.IntImm 16)
      (.AttrStmt .thread_extent (.IterVar 1 "threadIdx.x") (.IntImm 1000000) .Evaluate))

/-- A kernel region with a shared 1024-element 4-byte buffer. -/
def sharedAllocKernel : Stmt :=
  .ProducerConsumer true
    (.AttrStmt .storage_scope (.Variable 0) (.StringImm ("shared"))
      (.Allocate 0 4 1024 .Evaluate))

/-- A kernel region whose `threadIdx.x` extent 100 violates the bounds used
in the sibling-region example. -/
def violatingKernel : Stmt :=
  .ProducerConsumer true
    (.AttrStmt .thread_extent (.IterVar 0 "threadIdx.x") (.IntImm 100) .Evaluate)

/-- A kernel region whose `threadIdx.x` extent 4 is within the bounds used in
the sibling-region example. -/
def compliantKernel : Stmt :=
  .ProducerConsumer true
    (.AttrStmt .thread_extent (.IterVar 1 "threadIdx.x") (.IntImm 4) .Evaluate)

/-- Two sibling kernel regions, the first violating and the second within
bounds. -/
def siblingKernels : Stmt := .Block violatingKernel compliantKernel

/-- The state after a first `threadIdx` declaration is recorded: the name is
inserted and the extent is multiplied into the thread product. -/
def recordThread (s : VState) (nm : String) (v : Int) : VState :=
  { s with
    visited_threads := nm :: s.visited_threads
    thread_per_block := umul s.thread_per_block (toUSize v) }

/-- A tree holding a classified allocation outside any kernel marker next to
a kernel region. -/
def outsideNoise : Stmt :=
  .Block
    (.AttrStmt .storage_scope (.Variable 0) (.StringImm ("shared"))
      (.Allocate 0 4 100 .Evaluate))
    sharedAllocKernel

theorem setValid_valid (s : VState) (v : Bool) : (setValid s v).valid = v := rfl

theorem setValid_setValid (s : VState) (a b : Bool) :
    setValid (setValid s a) b = setValid s b := rfl

theorem setValid_self (s : VState) : setValid s s.valid = s := rfl

theorem Reset_setValid (s : VState) (v : Bool) :
    Reset_ (setValid s v) = setValid (Reset_ s) v := rfl

theorem threadExtentStep_nest (lim : Limits) (nm : String) (v : Int) (s : VState) :
    (threadExtentStep lim nm v s).nest_level = s.nest_level := by
  unfold threadExtentStep
  repeat' split
  all_goals rfl

theorem allocStep_nest (buf tb : Nat) (cs : Int) (s : VState) :
    (allocStep buf tb cs s).nest_level = s.nest_level := by
  unfold allocStep
  repeat' split
  all_goals rfl

theorem allocStep_valid (buf tb : Nat) (cs : Int) (s : VState) :
    (allocStep buf tb cs s).valid = s.valid := by
  unfold allocStep
  repeat' split
  all_goals rfl

theorem kernelCheck_nest (lim : Limits) (s : VState) :
    (kernelCheck lim s).nest_level = s.nest_level := rfl

theorem attrStep_nest (lim : Limits) (k : AttrKey) (n : NodeRef) (v : Expr)
    (s s' : VState) (h : attrStep lim k n v s = .ok s') :
    s'.nest_level = s.nest_level := by
  cases k with
  | storage_scope =>
    cases v with
    | StringImm str =>
      simp only [attrStep] at h
      split at h
      · cases h; rfl
      · split at h
        · cases h; rfl
        · cases h; rfl
    | IntImm v => simp [attrStep] at h
    | OtherExpr => simp [attrStep] at h
  | thread_extent =>
    cases n with
    | IterVar i nm =>
      cases v with
      | IntImm v =>
        simp only [attrStep] at h
        cases h
        exact threadExtentStep_nest lim nm v s
      | StringImm str => simp [attrStep] at h
      | OtherExpr => simp [attrStep] at h
    | Variable i => simp [attrStep] at h
    | OtherNode => simp [attrStep] at h
  | other_attr =>
    simp only [attrStep] at h
    cases h
    rfl

theorem Reset_nest (s : VState) : (Reset_ s).nest_level = s.nest_level := rfl

theorem Reset_valid (s : VState) : (Reset_ s).valid = s.valid := rfl

theorem visit_PC (lim : Limits) (p : Bool) (body : Stmt) (s : VState) :
    visit lim (.ProducerConsumer p body) s =
      (match kernelBody lim p body (if s.nest_level = 0 then Reset_ s else s) with
       | .error e => .error e
       | .ok s' => .ok (if s'.nest_level = 0 then kernelCheck lim s' else s')) := by
  cases p <;> rfl

theorem visit_Allocate (lim : Limits) (buf tb : Nat) (cs : Int) (body : Stmt) (s : VState) :
    visit lim (.Allocate buf tb cs body) s =
      (match visit lim body s with
       | .error e => .error e
       | .ok s' => .ok (allocStep buf tb cs s')) := rfl

theorem visit_Attr (lim : Limits) (key : AttrKey) (node : NodeRef) (value : Expr)
    (body : Stmt) (s : VState) :
    visit lim (.AttrStmt key node value body) s =
      (match attrStep lim key node value s with
       | .error e => .error e
       | .ok s' => visit lim body s') := rfl

theorem visit_Block (lim : Limits) (a b : Stmt) (s : VState) :
    visit lim (.Block a b) s =
      (match visit lim a s with
       | .error e => .error e
       | .ok s' => visit lim b s') := rfl

theorem visit_Evaluate (lim : Limits) (s : VState) :
    visit lim .Evaluate s = .ok s := rfl

theorem kernelBody_nest (lim : Limits) (p : Bool) (body : Stmt) (s s' : VState)
    (ih : ∀ u u', visit lim body u = .ok u' → u'.nest_level = u.nest_level)
    (h : kernelBody lim p body s = .ok s') : s'.nest_level = s.nest_level := by
  unfold kernelBody at h
  by_cases hp : p
  · rw [if_pos hp] at h
    cases hv : visit lim body { s with nest_level := s.nest_level + 1 } with
    | error e => rw [hv] at h; cases h
    | ok s2 =>
      rw [hv] at h
      cases h
      have h2 := ih _ _ hv
      show s2.nest_level - 1 = s.nest_level
      rw [h2]
      show s.nest_level + 1 - 1 = s.nest_level
      omega
  · rw [if_neg hp] at h
    exact ih _ _ h

theorem visit_nest (lim : Limits) (t : Stmt) :
    ∀ s s', visit lim t s = .ok s' → s'.nest_level = s.nest_level := by
  induction t with
  | ProducerConsumer p body ih =>
    intro s s' h
    rw [visit_PC] at h
    have hs0n : (if s.nest_level = 0 then Reset_ s else s).nest_level = s.nest_level := by
      split <;> rfl
    cases hkb : kernelBody lim p body (if s.nest_level = 0 then Reset_ s else s) with
    | error e => rw [hkb] at h; cases h
    | ok s1 =>
      rw [hkb] at h
      cases h
      have h1 := kernelBody_nest lim p body _ _ ih hkb
      split
      · rw [kernelCheck_nest, h1, hs0n]
      · rw [h1, hs0n]
  | Allocate buf tb cs body ih =>
    intro s s' h
    unfold visit at h
    cases hb : visit lim body s with
    | error e => rw [hb] at h; cases h
    | ok s1 =>
      rw [hb] at h
      cases h
      rw [allocStep_nest]
      exact ih s s1 hb
  | AttrStmt key node value body ih =>
    intro s s' h
    unfold visit at h
    cases ha : attrStep lim key node value s with
    | error e => rw [ha] at h; cases h
    | ok s1 =>
      rw [ha] at h
      have := ih s1 s' h
      rw [this]
      exact attrStep_nest lim key node value s s1 ha
  | Block a b iha ihb =>
    intro s s' h
    unfold visit at h
    cases hb : visit lim a s with
    | error e => rw [hb] at h; cases h
    | ok s1 =>
      rw [hb] at h
      rw [ihb s1 s' h]
      exact iha s s1 hb
  | Evaluate =>
    intro s s' h
    unfold visit at h
    cases h
    rfl

theorem threadExtentStep_frame (lim : Limits) (nm : String) (v : Int) (s : VState) (b : Bool) :
    threadExtentStep lim nm v (setValid s b) =
      setValid (threadExtentStep lim nm v (setValid s true))
        (b && (threadExtentStep lim nm v (setValid s true)).valid) := by
  cases s with
  | mk nl lb sb vt lm sm tp vv =>
    by_cases c1 : nm = "threadIdx.x" ∨ nm = "threadIdx.y" ∨ nm = "threadIdx.z"
    · by_cases c2 : nm ∈ vt
      · simp [threadExtentStep, setValid, c1, c2]
      · rcases c1 with hx | hy | hz
        · subst hx; simp [threadExtentStep, setValid, c2, Bool.and_assoc]
        · subst hy; simp [threadExtentStep, setValid, c2, Bool.and_assoc]
        · subst hz; simp [threadExtentStep, setValid, c2, Bool.and_assoc]
    · simp [threadExtentStep, setValid, c1]

theorem attrStep_frame (lim : Limits) (k : AttrKey) (n : NodeRef) (v : Expr)
    (s : VState) (b : Bool) :
    attrStep lim k n v (setValid s b) =
      Except.map (fun r => setValid r (b && r.valid)) (attrStep lim k n v (setValid s true)) := by
  cases k with
  | storage_scope =>
    cases v with
    | StringImm str =>
      by_cases h1 : str = "local"
      · simp [attrStep, setValid, h1, Except.map]
      · by_cases h2 : str = "shared"
        · simp [attrStep, setValid, h1, h2, Except.map]
        · simp [attrStep, setValid, h1, h2, Except.map]
    | IntImm w => simp [attrStep, Except.map]
    | OtherExpr => simp [attrStep, Except.map]
  | thread_extent =>
    cases n with
    | IterVar i nm =>
      cases v with
      | IntImm w =>
        simp only [attrStep, Except.map]
        rw [threadExtentStep_frame]
      | StringImm str => simp [attrStep, Except.map]
      | OtherExpr => simp [attrStep, Except.map]
    | Variable i => simp [attrStep, Except.map]
    | OtherNode => simp [attrStep, Except.map]
  | other_attr => simp [attrStep, setValid, Except.map]

theorem allocStep_setValid (buf tb : Nat) (cs : Int) (s : VState) (b : Bool) :
    allocStep buf tb cs (setValid s b) = setValid (allocStep buf tb cs s) b := by
  cases s with
  | mk nl lb sb vt lm sm tp vv =>
    by_cases h1 : some buf ∈ lb
    · simp [allocStep, setValid, h1]
    · by_cases h2 : some buf ∈ sb
      · simp [allocStep, setValid, h1, h2]
      · simp [allocStep, setValid, h1, h2]

theorem kernelCheck_frame (lim : Limits) (q : VState) (x : Bool) :
    kernelCheck lim (setValid q (x && q.valid)) =
      setValid (kernelCheck lim q) (x && (kernelCheck lim q).valid) := by
  cases q with
  | mk nl lb sb vt lm sm tp vv => simp [kernelCheck, setValid, Bool.and_assoc]

theorem kernelBody_frame (lim : Limits) (p : Bool) (body : Stmt) (s : VState) (b : Bool)
    (ih : ∀ u v, visit lim body (setValid u v) =
      Except.map (fun r => setValid r (v && r.valid)) (visit lim body (setValid u true))) :
    kernelBody lim p body (setValid s b) =
      Except.map (fun r => setValid r (b && r.valid)) (kernelBody lim p body (setValid s true)) := by
  unfold kernelBody
  by_cases hp : p
  · rw [if_pos hp, if_pos hp]
    have c1 : ({ setValid s b with nest_level := (setValid s b).nest_level + 1 }) =
        setValid { s with nest_level := s.nest_level + 1 } b := rfl
    have c2 : ({ setValid s true with nest_level := (setValid s true).nest_level + 1 }) =
        setValid { s with nest_level := s.nest_level + 1 } true := rfl
    rw [c1, c2, ih _ b]
    cases h : visit lim body (setValid { s with nest_level := s.nest_level + 1 } true) with
    | error e => simp [Except.map]
    | ok r => rfl
  · rw [if_neg hp, if_neg hp]
    exact ih s b

theorem visit_frame (lim : Limits) (t : Stmt) :
    ∀ (s : VState) (b : Bool),
      visit lim t (setValid s b) =
        Except.map (fun r => setValid r (b && r.valid)) (visit lim t (setValid s true)) := by
  induction t with
  | Evaluate =>
    intro s b
    simp [visit, Except.map, setValid_setValid, setValid_valid]
  | Block a c iha ihc =>
    intro s b
    simp only [visit]
    rw [iha s b]
    cases h : visit lim a (setValid s true) with
    | error e => simp [Except.map]
    | ok r =>
      simp only [Except.map]
      rw [show visit lim c r = visit lim c (setValid r r.valid) from by rw [setValid_self]]
      rw [ihc r (b && r.valid), ihc r r.valid]
      cases h2 : visit lim c (setValid r true) with
      | error e => simp [Except.map]
      | ok q => simp [Except.map, setValid_setValid, setValid_valid, Bool.and_assoc]
  | AttrStmt key node value body ih =>
    intro s b
    simp only [visit]
    rw [attrStep_frame]
    cases h : attrStep lim key node value (setValid s true) with
    | error e => simp [Except.map]
    | ok r =>
      simp only [Except.map]
      rw [show visit lim body r = visit lim body (setValid r r.valid) from by rw [setValid_self]]
      rw [ih r (b && r.valid), ih r r.valid]
      cases h2 : visit lim body (setValid r true) with
      | error e => simp [Except.map]
      | ok q => simp [Except.map, setValid_setValid, setValid_valid, Bool.and_assoc]
  | Allocate buf tb cs body ih =>
    intro s b
    simp only [visit]
    rw [ih s b]
    cases h : visit lim body (setValid s true) with
    | error e => simp [Except.map]
    | ok r =>
      simp only [Except.map]
      rw [allocStep_setValid]
      have : (allocStep buf tb cs r).valid = r.valid := allocStep_valid buf tb cs r
      rw [this]
  | ProducerConsumer p body ih =>
    intro s b
    rw [visit_PC, visit_PC]
    have e1 : (if (setValid s b).nest_level = 0 then Reset_ (setValid s b) else setValid s b) =
        setValid (if s.nest_level = 0 then Reset_ s else s) b := by
      show (if s.nest_level = 0 then Reset_ (setValid s b) else setValid s b) = _
      split <;> rfl
    have e2 : (if (setValid s true).nest_level = 0 then Reset_ (setValid s true) else setValid s true) =
        setValid (if s.nest_level = 0 then Reset_ s else s) true := by
      show (if s.nest_level = 0 then Reset_ (setValid s true) else setValid s true) = _
      split <;> rfl
    rw [e1, e2]
    rw [kernelBody_frame lim p body _ b ih]
    cases hkb : kernelBody lim p body (setValid (if s.nest_level = 0 then Reset_ s else s) true) with
    | error e => simp [Except.map]
    | ok r =>
      simp only [Except.map]
      have hn : (setValid r (b && r.valid)).nest_level = r.nest_level := rfl
      rw [hn]
      by_cases h0 : r.nest_level = 0
      · rw [if_pos h0, if_pos h0]
        rw [kernelCheck_frame]
      · rw [if_neg h0, if_neg h0]

theorem visit_valid_mono (lim : Limits) (t : Stmt) (s s' : VState)
    (h : visit lim t s = .ok s') (hv : s.valid = false) : s'.valid = false := by
  have hs : s = setValid s false := by rw [← hv, setValid_self]
  rw [hs, visit_frame] at h
  cases h2 : visit lim t (setValid s true) with
  | error e => rw [h2] at h; cases h
  | ok r =>
    rw [h2] at h
    simp only [Except.map] at h
    cases h
    simp [setValid_valid]

theorem dimLimit_x (lim : Limits) : dimLimit lim ("threadIdx.x") = lim.max_thread_x := rfl

theorem dimLimit_y (lim : Limits) : dimLimit lim ("threadIdx.y") = lim.max_thread_y := by
  simp [dimLimit]

theorem dimLimit_z (lim : Limits) : dimLimit lim ("threadIdx.z") = lim.max_thread_z := by
  simp [dimLimit]

theorem threadExtentStep_valid_within (lim : Limits) (nm : String) (v : Int) (s : VState)
    (hok : (nm = "threadIdx.x" ∨ nm = "threadIdx.y" ∨ nm = "threadIdx.z") →
      toUSize v ≤ dimLimit lim nm) :
    (threadExtentStep lim nm v s).valid = s.valid := by
  by_cases c1 : nm = "threadIdx.x" ∨ nm = "threadIdx.y" ∨ nm = "threadIdx.z"
  · by_cases c2 : nm ∈ s.visited_threads
    · simp [threadExtentStep, c1, c2]
    · have hb := hok c1
      rcases c1 with hx | hy | hz
      · subst hx
        rw [dimLimit_x] at hb
        simp [threadExtentStep, c2, hb]
      · subst hy
        rw [dimLimit_y] at hb
        simp [threadExtentStep, c2, hb]
      · subst hz
        rw [dimLimit_z] at hb
        simp [threadExtentStep, c2, hb]
  · simp [threadExtentStep, c1]

theorem visit_noKernel_valid (lim : Limits) (t : Stmt) :
    ∀ s s', noKernel t = true → threadExtentsOk lim t = true →
      visit lim t s = .ok s' → s'.valid = s.valid := by
  induction t with
  | ProducerConsumer p body ih =>
    intro s s' hK
    simp [noKernel] at hK
  | Allocate buf tb cs body ih =>
    intro s s' hK hT h
    unfold visit at h
    cases hb : visit lim body s with
    | error e => rw [hb] at h; cases h
    | ok s1 =>
      rw [hb] at h
      cases h
      rw [allocStep_valid]
      exact ih s s1 hK hT hb
  | AttrStmt key node value body ih =>
    intro s s' hK hT h
    rw [noKernel] at hK
    unfold visit at h
    cases ha : attrStep lim key node value s with
    | error e => rw [ha] at h; cases h
    | ok s1 =>
      rw [ha] at h
      cases key with
      | storage_scope =>
        have hT' : threadExtentsOk lim body = true := by
          simp only [threadExtentsOk, Bool.and_eq_true] at hT
          exact hT.2
        rw [ih s1 s' hK hT' h]
        cases value with
        | StringImm str =>
          simp only [attrStep] at ha
          split at ha
          · cases ha; rfl
          · split at ha
            · cases ha; rfl
            · cases ha; rfl
        | IntImm w => simp [attrStep] at ha
        | OtherExpr => simp [attrStep] at ha
      | thread_extent =>
        cases node with
        | IterVar i nm =>
          cases value with
          | IntImm v =>
            simp only [threadExtentsOk, Bool.and_eq_true] at hT
            rw [ih s1 s' hK hT.2 h]
            simp only [attrStep] at ha
            cases ha
            apply threadExtentStep_valid_within
            intro c1
            have h1 := hT.1
            rw [if_pos c1] at h1
            exact of_decide_eq_true h1
          | StringImm str => simp [attrStep] at ha
          | OtherExpr => simp [attrStep] at ha
        | Variable i => simp [attrStep] at ha
        | OtherNode => simp [attrStep] at ha
      | other_attr =>
        have hT' : threadExtentsOk lim body = true := by
          simp only [threadExtentsOk, Bool.and_eq_true] at hT
          exact hT.2
        rw [ih s1 s' hK hT' h]
        simp only [attrStep] at ha
        cases ha
        rfl
  | Block a b iha ihb =>
    intro s s' hK hT h
    rw [noKernel, Bool.and_eq_true] at hK
    rw [threadExtentsOk, Bool.and_eq_true] at hT
    unfold visit at h
    cases hb : visit lim a s with
    | error e => rw [hb] at h; cases h
    | ok s1 =>
      rw [hb] at h
      rw [ihb s1 s' hK.2 hT.2 h]
      exact iha s s1 hK.1 hT.1 hb
  | Evaluate =>
    intro s s' _ _ h
    unfold visit at h
    cases h
    rfl

theorem memEquiv_refl (s : VState) : MemEquiv s s := ⟨rfl, rfl, rfl, rfl⟩

theorem relOut_refl (x : Except VError VState) : RelOut x x := by
  cases x with
  | error e => exact rfl
  | ok s => exact memEquiv_refl s

theorem allocStep_threads (buf tb : Nat) (cs : Int) (s : VState) :
    (allocStep buf tb cs s).visited_threads = s.visited_threads := by
  unfold allocStep
  repeat' split
  all_goals rfl

theorem allocStep_tpb (buf tb : Nat) (cs : Int) (s : VState) :
    (allocStep buf tb cs s).thread_per_block = s.thread_per_block := by
  unfold allocStep
  repeat' split
  all_goals rfl

theorem allocStep_memEquiv (buf tb : Nat) (cs : Int) (s1 s2 : VState)
    (h : MemEquiv s1 s2) : MemEquiv s1 (allocStep buf tb cs s2) := by
  obtain ⟨h1, h2, h3, h4⟩ := h
  exact ⟨h1.trans (allocStep_nest buf tb cs s2).symm,
    h2.trans (allocStep_threads buf tb cs s2).symm,
    h3.trans (allocStep_tpb buf tb cs s2).symm,
    h4.trans (allocStep_valid buf tb cs s2).symm⟩

theorem threadExtentStep_memEquiv (lim : Limits) (nm : String) (v : Int)
    (s1 s2 : VState) (h : MemEquiv s1 s2) :
    MemEquiv (threadExtentStep lim nm v s1) (threadExtentStep lim nm v s2) := by
  cases s1 with
  | mk nl1 lb1 sb1 vt1 lm1 sm1 tp1 vv1 =>
    cases s2 with
    | mk nl2 lb2 sb2 vt2 lm2 sm2 tp2 vv2 =>
      obtain ⟨h1, h2, h3, h4⟩ := h
      simp only [] at h1 h2 h3 h4
      subst h1; subst h2; subst h3; subst h4
      by_cases c1 : nm = "threadIdx.x" ∨ nm = "threadIdx.y" ∨ nm = "threadIdx.z"
      · by_cases c2 : nm ∈ vt1
        · simp [threadExtentStep, c1, c2, MemEquiv]
        · rcases c1 with hx | hy | hz
          · subst hx; simp [threadExtentStep, c2, MemEquiv]
          · subst hy; simp [threadExtentStep, c2, MemEquiv]
          · subst hz; simp [threadExtentStep, c2, MemEquiv]
      · simp [threadExtentStep, c1, MemEquiv]

theorem Reset_congr (s1 s2 : VState) (h1 : s1.nest_level = s2.nest_level)
    (h2 : s1.valid = s2.valid) : Reset_ s1 = Reset_ s2 := by
  cases s1
  cases s2
  simp only [] at h1 h2
  subst h1; subst h2
  rfl

theorem visit_PC_congr (lim : Limits) (p : Bool) (body : Stmt) (s1 s2 : VState)
    (h1 : s1.nest_level = 0) (h2 : s2.nest_level = 0) (hv : s1.valid = s2.valid) :
    visit lim (.ProducerConsumer p body) s1 = visit lim (.ProducerConsumer p body) s2 := by
  rw [visit_PC, visit_PC, if_pos h1, if_pos h2,
    Reset_congr s1 s2 (h1.trans h2.symm) hv]

theorem visit_strip (lim : Limits) (t : Stmt) :
    ∀ s1 s2, outsideScopesWF t = true → s1.nest_level = 0 → MemEquiv s1 s2 →
      RelOut (visit lim (stripOutside t) s1) (visit lim t s2) := by
  induction t with
  | ProducerConsumer p body ih =>
    intro s1 s2 _ h0 hme
    have h20 : s2.nest_level = 0 := hme.1 ▸ h0
    show RelOut (visit lim (.ProducerConsumer p body) s1) (visit lim (.ProducerConsumer p body) s2)
    rw [visit_PC_congr lim p body s1 s2 h0 h20 hme.2.2.2]
    exact relOut_refl _
  | Allocate buf tb cs body ih =>
    intro s1 s2 hwf h0 hme
    have hwf' : outsideScopesWF body = true := hwf
    show RelOut (visit lim (stripOutside body) s1) (visit lim (.Allocate buf tb cs body) s2)
    rw [visit_Allocate]
    have r := ih s1 s2 hwf' h0 hme
    cases hvb : visit lim body s2 with
    | error e' =>
      rw [hvb] at r
      exact r
    | ok r2 =>
      rw [hvb] at r
      cases hva : visit lim (stripOutside body) s1 with
      | error e =>
        rw [hva] at r
        exact absurd r (by simp [RelOut])
      | ok r1 =>
        rw [hva] at r
        exact allocStep_memEquiv buf tb cs r1 r2 r
  | AttrStmt key node value body ih =>
    intro s1 s2 hwf h0 hme
    cases key with
    | storage_scope =>
      cases value with
      | StringImm str =>
        have hwf' : outsideScopesWF body = true := by
          simp only [outsideScopesWF, Bool.and_eq_true] at hwf
          exact hwf.2
        show RelOut (visit lim (stripOutside body) s1)
          (visit lim (.AttrStmt .storage_scope node (.StringImm str) body) s2)
        rw [visit_Attr]
        simp only [attrStep]
        by_cases hl : str = "local"
        · rw [if_pos hl]
          exact ih s1 _ hwf' h0 hme
        · rw [if_neg hl]
          by_cases hs : str = "shared"
          · rw [if_pos hs]
            exact ih s1 _ hwf' h0 hme
          · rw [if_neg hs]
            exact ih s1 s2 hwf' h0 hme
      | IntImm w =>
        exfalso
        simp [outsideScopesWF, Expr.isStringImm] at hwf
      | OtherExpr =>
        exfalso
        simp [outsideScopesWF, Expr.isStringImm] at hwf
    | thread_extent =>
      have hwf' : outsideScopesWF body = true := by
        simp only [outsideScopesWF, Bool.and_eq_true] at hwf
        exact hwf.2
      show RelOut (visit lim (.AttrStmt .thread_extent node value (stripOutside body)) s1)
        (visit lim (.AttrStmt .thread_extent node value body) s2)
      rw [visit_Attr, visit_Attr]
      cases node with
      | IterVar i nm =>
        cases value with
        | IntImm v =>
          simp only [attrStep]
          have hst := threadExtentStep_memEquiv lim nm v s1 s2 hme
          have hn : (threadExtentStep lim nm v s1).nest_level = 0 := by
            rw [threadExtentStep_nest]
            exact h0
          exact ih _ _ hwf' hn hst
        | StringImm str => simp only [attrStep]; exact rfl
        | OtherExpr => simp only [attrStep]; exact rfl
      | Variable i => simp only [attrStep]; exact rfl
      | OtherNode => simp only [attrStep]; exact rfl
    | other_attr =>
      have hwf' : outsideScopesWF body = true := by
        simp only [outsideScopesWF, Bool.and_eq_true] at hwf
        exact hwf.2
      show RelOut (visit lim (.AttrStmt .other_attr node value (stripOutside body)) s1)
        (visit lim (.AttrStmt .other_attr node value body) s2)
      rw [visit_Attr, visit_Attr]
      simp only [attrStep]
      exact ih s1 s2 hwf' h0 hme
  | Block a b iha ihb =>
    intro s1 s2 hwf h0 hme
    rw [outsideScopesWF, Bool.and_eq_true] at hwf
    show RelOut (visit lim (.Block (stripOutside a) (stripOutside b)) s1)
      (visit lim (.Block a b) s2)
    rw [visit_Block, visit_Block]
    have ra := iha s1 s2 hwf.1 h0 hme
    cases hva : visit lim (stripOutside a) s1 with
    | error e =>
      cases hvb : visit lim a s2 with
      | error e' =>
        rw [hva, hvb] at ra
        exact ra
      | ok r2 =>
        rw [hva, hvb] at ra
        exact absurd ra (by simp [RelOut])
    | ok r1 =>
      cases hvb : visit lim a s2 with
      | error e' =>
        rw [hva, hvb] at ra
        exact absurd ra (by simp [RelOut])
      | ok r2 =>
        rw [hva, hvb] at ra
        have hn1 : r1.nest_level = 0 := by
          rw [visit_nest lim (stripOutside a) s1 r1 hva]
          exact h0
        exact ihb r1 r2 hwf.2 hn1 ra
  | Evaluate =>
    intro s1 s2 _ _ hme
    exact hme

theorem threadExtentStep_idem (lim : Limits) (nm : String) (v1 v2 : Int) (s : VState) :
    threadExtentStep lim nm v2 (threadExtentStep lim nm v1 s) =
      threadExtentStep lim nm v1 s := by
  by_cases c1 : nm = "threadIdx.x" ∨ nm = "threadIdx.y" ∨ nm = "threadIdx.z"
  · by_cases c2 : nm ∈ s.visited_threads
    · have h1 : threadExtentStep lim nm v1 s = s := by
        simp [threadExtentStep, c1, c2]
      rw [h1]
      simp [threadExtentStep, c1, c2]
    · have hr : nm ∈ (threadExtentStep lim nm v1 s).visited_threads := by
        rcases c1 with hx | hy | hz
        · subst hx; simp [threadExtentStep, c2]
        · subst hy; simp [threadExtentStep, c2]
        · subst hz; simp [threadExtentStep, c2]
      generalize hgen : threadExtentStep lim nm v1 s = u at hr ⊢
      simp [threadExtentStep, c1, hr]
  · simp [threadExtentStep, c1]

/-- C1: whenever the traversal of a kernel-region marker returns to nest
depth 0, the verifier ANDs into the running verdict the three checks
(thread product against the threads-per-block limit, then the local and
shared memory counters against their limits); a single kernel region with
`threadIdx.x` extent 32 and `threadIdx.y` extent 8 verifies under limits
256/32/16 and fails when the threads-per-block limit is 255. -/
theorem C1_kernel_exit_checks :
    (∀ (lim : Limits) (p : Bool) (body : Stmt) (s s' : VState),
      s.nest_level = 0 →
      kernelBody lim p body (Reset_ s) = .ok s' →
      visit lim (.ProducerConsumer p body) s =
        .ok (setValid s'
          (((s'.valid && decide (s'.thread_per_block ≤ lim.max_thread_per_block))
            && decide (s'.local_memory_per_block ≤ lim.max_local_memory_per_block))
            && decide (s'.shared_memory_per_block ≤ lim.max_shared_memory_per_block))))
    ∧ VerifyGPUCode kernelXY
        [("max_thread_per_block", .IntImm 256), ("max_thread_x", .IntImm 32),
         ("max_thread_y", .IntImm 16)] = .ok true
    ∧ VerifyGPUCode kernelXY
        [("max_thread_per_block", .IntImm 255), ("max_thread_x", .IntImm 32),
         ("max_thread_y", .IntImm 16)] = .ok false := by
  refine ⟨?_, by decide, by decide⟩
  intro lim p body s s' h0 hkb
  rw [visit_PC, if_pos h0, hkb]
  have hn : s'.nest_level = 0 := by
    have h1 := kernelBody_nest lim p body (Reset_ s) s' (visit_nest lim body) hkb
    rw [h1, Reset_nest]
    exact h0
  show Except.ok (if s'.nest_level = 0 then kernelCheck lim s' else s') = _
  rw [if_pos hn]
  rfl

/-- C1 witness: the general conjunct applied to a concrete empty kernel
region at concrete limits. -/
theorem C1_kernel_exit_checks_witness :
    visit (mkLimits 1 1 1 1 1 1) (.ProducerConsumer true .Evaluate) initState =
      .ok (setValid initState
        (((initState.valid
          && decide (initState.thread_per_block ≤ (mkLimits 1 1 1 1 1 1).max_thread_per_block))
          && decide (initState.local_memory_per_block ≤
            (mkLimits 1 1 1 1 1 1).max_local_memory_per_block))
          && decide (initState.shared_memory_per_block ≤
            (mkLimits 1 1 1 1 1 1).max_shared_memory_per_block))) :=
  C1_kernel_exit_checks.1 (mkLimits 1 1 1 1 1 1) true .Evaluate initState initState
    rfl (by decide)

/-- C2 counterexample: a tree with no kernel-region marker whose
`threadIdx.x` thread-extent annotation exceeds `max_thread_x` makes the
verifier return `false`, refuting the claim that trees without markers
always verify regardless of thread-extent annotations and bounds. -/
theorem C2_counterexample :
    noKernel badNoKernelTree = true ∧
    VerifyGPUCode badNoKernelTree [("max_thread_x", .IntImm 1)] = .ok false := by
  exact ⟨rfl, by decide⟩

/-- C2 (amended): for every tree with no kernel-region marker in which
every `threadIdx` thread-extent annotation is within its per-dimension
bound, whenever the verifier returns a verdict it returns `true` —
storage-scope annotations, allocations and the remaining bounds are
irrelevant, because the per-kernel checks never run. -/
theorem C2_noKernel_verdict :
    ∀ (t : Stmt) (ml ms mt mx my mz : Int) (r : Bool),
      noKernel t = true →
      threadExtentsOk (mkLimits ml ms mt mx my mz) t = true →
      Verify t ml ms mt mx my mz = .ok r → r = true := by
  intro t ml ms mt mx my mz r hK hT h
  unfold Verify at h
  cases hv : visit (mkLimits ml ms mt mx my mz) t initState with
  | error e => rw [hv] at h; cases h
  | ok s =>
    rw [hv] at h
    cases h
    rw [visit_noKernel_valid (mkLimits ml ms mt mx my mz) t initState s hK hT hv]
    rfl

/-- C2 witness: the amended claim applied to a concrete marker-free tree
holding a classified allocation and an in-bounds `threadIdx.x` extent. -/
theorem C2_noKernel_verdict_witness : (true : Bool) = true :=
  C2_noKernel_verdict noKernelTree 1 1 1 4 1 1 true (by decide) (by decide) (by decide)

/-- C6: malformed input aborts instead of producing a verdict: a
thread-extent annotation whose target is not an iteration variable
dereferences null, one whose value is not a constant integer fails the
`CHECK`, and a configured limit entry that is not a constant integer
dereferences null in `get_int`. -/
theorem C6_malformed_fatal :
    (∀ (lim : Limits) (node : NodeRef) (value : Expr) (body : Stmt) (s : VState),
      node.isIterVar = false →
      visit lim (.AttrStmt .thread_extent node value body) s = .error .nullDeref)
    ∧ (∀ (lim : Limits) (i : Nat) (nm : String) (value : Expr) (body : Stmt) (s : VState),
        value.isIntImm = false →
        visit lim (.AttrStmt .thread_extent (.IterVar i nm) value body) s = .error .checkFail)
    ∧ (∀ (c : List (String × Expr)) (key : String) (d : Int) (e : Expr),
        findConstraint c key = some e → e.isIntImm = false →
        get_int c key d = .error .nullDeref) := by
  refine ⟨?_, ?_, ?_⟩
  · intro lim node value body s h
    cases node with
    | IterVar i nm => simp [NodeRef.isIterVar] at h
    | Variable i => rfl
    | OtherNode => rfl
  · intro lim i nm value body s h
    cases value with
    | IntImm v => simp [Expr.isIntImm] at h
    | StringImm str => rfl
    | OtherExpr => rfl
  · intro c key d e hf hni
    unfold get_int
    rw [hf]
    cases e with
    | IntImm v => simp [Expr.isIntImm] at hni
    | StringImm str => rfl
    | OtherExpr => rfl

/-- C6 witness: the three conjuncts applied at concrete malformed inputs. -/
theorem C6_malformed_fatal_witness :
    visit (mkLimits 1 1 1 1 1 1)
      (.AttrStmt .thread_extent (.Variable 0) (.IntImm 3) .Evaluate) initState =
      .error .nullDeref :=
  C6_malformed_fatal.1 (mkLimits 1 1 1 1 1 1) (.Variable 0) (.IntImm 3) .Evaluate
    initState rfl

/-- C7: for every tree and configuration, omitting one of the six limit
names from the configuration yields the same result as including that name
with value `INT64_MAX`: absent entries resolve to the largest representable
signed 64-bit value, meaning unconstrained. -/
theorem C7_absent_limit_unconstrained :
    ∀ (stmt : Stmt) (c : List (String × Expr)) (key : String),
      (key = "max_local_memory_per_block" ∨ key = "max_shared_memory_per_block" ∨
        key = "max_thread_per_block" ∨ key = "max_thread_x" ∨
        key = "max_thread_y" ∨ key = "max_thread_z") →
      findConstraint c key = none →
      VerifyGPUCode stmt ((key, .IntImm INT64_MAX) :: c) = VerifyGPUCode stmt c := by
  intro stmt c key hkey hnone
  rcases hkey with h | h | h | h | h | h <;> subst h <;>
    simp [VerifyGPUCode, get_int, findConstraint, hnone]

/-- C7 witness: adding `max_thread_x = INT64_MAX` to an empty configuration
changes nothing. -/
theorem C7_absent_limit_unconstrained_witness :
    VerifyGPUCode .Evaluate [("max_thread_x", .IntImm INT64_MAX)] =
      VerifyGPUCode .Evaluate [] :=
  C7_absent_limit_unconstrained .Evaluate [] "max_thread_x"
    (Or.inr (Or.inr (Or.inr (Or.inl rfl)))) rfl

/-- C8: the verdict starts true and is only ever ANDed: the result of any
traversal from a state with verdict `v` equals the result from the same
state with verdict `true` with `v` ANDed into its final verdict (so the same
nodes are visited either way and there is no early termination), and in
particular a false verdict can never become true again. -/
theorem C8_verdict_and :
    (initState.valid = true)
    ∧ (∀ (lim : Limits) (t : Stmt) (s s' : VState),
        visit lim t s = .ok s' → s.valid = false → s'.valid = false)
    ∧ (∀ (lim : Limits) (t : Stmt) (s : VState) (v : Bool),
        visit lim t (setValid s v) =
          Except.map (fun r => setValid r (v && r.valid)) (visit lim t (setValid s true))) :=
  ⟨rfl, fun lim t s s' => visit_valid_mono lim t s s',
    fun lim t s v => visit_frame lim t s v⟩

/-- C8 witness: the once-false-stays-false conjunct applied to a concrete
traversal from a false verdict. -/
theorem C8_verdict_and_witness : (setValid initState false).valid = false :=
  C8_verdict_and.2.1 (mkLimits 1 1 1 1 1 1) .Evaluate (setValid initState false)
    (setValid initState false) rfl rfl

/-- C9: allocation nodes and storage-scope annotations outside every kernel
marker never affect the result: removing them all (on trees whose outside
scope annotations are well formed) leaves the verifier result unchanged,
because counters are only checked at depth-0 marker exits and all accountant
state is reset at depth-0 marker entries. -/
theorem C9_outside_invisible :
    ∀ (t : Stmt) (ml ms mt mx my mz : Int),
      outsideScopesWF t = true →
      Verify (stripOutside t) ml ms mt mx my mz = Verify t ml ms mt mx my mz := by
  intro t ml ms mt mx my mz hwf
  have h := visit_strip (mkLimits ml ms mt mx my mz) t initState initState hwf rfl
    (memEquiv_refl initState)
  unfold Verify
  cases h1 : visit (mkLimits ml ms mt mx my mz) (stripOutside t) initState with
  | error e =>
    cases h2 : visit (mkLimits ml ms mt mx my mz) t initState with
    | error e' =>
      rw [h1, h2] at h
      have he : e = e' := h
      rw [he]
    | ok r2 =>
      rw [h1, h2] at h
      exact absurd h (by simp [RelOut])
  | ok r1 =>
    cases h2 : visit (mkLimits ml ms mt mx my mz) t initState with
    | error e' =>
      rw [h1, h2] at h
      exact absurd h (by simp [RelOut])
    | ok r2 =>
      rw [h1, h2] at h
      have hv : r1.valid = r2.valid := h.2.2.2
      show Except.ok r1.valid = Except.ok r2.valid
      rw [hv]

/-- C9 witness: stripping a classified allocation that sits outside the
kernel region of a concrete tree leaves the result unchanged. -/
theorem C9_outside_invisible_witness :
    Verify (stripOutside outsideNoise) 1 4096 9 9 9 9 =
      Verify outsideNoise 1 4096 9 9 9 9 :=
  C9_outside_invisible outsideNoise 1 4096 9 9 9 9 (by decide)

/-- C10: the storage-scope branch reads the annotation value as a string
constant unconditionally: with a `StringImm` value the classification step
never faults and just extends the matching classification set before
recursing, and with any non-`StringImm` value the traversal dereferences
null rather than handling the error or returning a verdict. -/
theorem C10_scope_value_deref :
    (∀ (lim : Limits) (node : NodeRef) (str : String) (body : Stmt) (s : VState),
      visit lim (.AttrStmt .storage_scope node (.StringImm str) body) s =
        visit lim body
          (if str = "local" then
            { s with visited_local_buffers := node.asVariable :: s.visited_local_buffers }
          else if str = "shared" then
            { s with visited_shared_buffers := node.asVariable :: s.visited_shared_buffers }
          else s))
    ∧ (∀ (lim : Limits) (node : NodeRef) (value : Expr) (body : Stmt) (s : VState),
        value.isStringImm = false →
        visit lim (.AttrStmt .storage_scope node value body) s = .error .nullDeref) := by
  constructor
  · intro lim node str body s
    rw [visit_Attr]
    simp only [attrStep]
    by_cases hl : str = "local"
    · simp only [if_pos hl]
    · simp only [if_neg hl]
      by_cases hs : str = "shared"
      · simp only [if_pos hs]
      · simp only [if_neg hs]
  · intro lim node value body s h
    cases value with
    | StringImm str => simp [Expr.isStringImm] at h
    | IntImm v => rfl
    | OtherExpr => rfl

/-- C3: each `threadIdx` name is counted at most once per kernel region:
duplicating a thread-extent annotation for the same name, even with a
different extent, leaves the whole traversal unchanged; the first annotation
for a not-yet-counted name records it, multiplies its extent into the thread
product and ANDs the per-dimension check into the verdict; any later
annotation for an already-counted name leaves the state untouched. -/
theorem C3_thread_once :
    (∀ (lim : Limits) (s : VState) (i1 i2 : Nat) (nm : String) (v1 v2 : Int) (body : Stmt),
      visit lim (.AttrStmt .thread_extent (.IterVar i1 nm) (.IntImm v1)
        (.AttrStmt .thread_extent (.IterVar i2 nm) (.IntImm v2) body)) s =
        visit lim (.AttrStmt .thread_extent (.IterVar i1 nm) (.IntImm v1) body) s)
    ∧ (∀ (lim : Limits) (s : VState) (i : Nat) (nm : String) (v : Int),
        (nm = "threadIdx.x" ∨ nm = "threadIdx.y" ∨ nm = "threadIdx.z") →
        nm ∉ s.visited_threads →
        attrStep lim .thread_extent (.IterVar i nm) (.IntImm v) s =
          .ok (setValid (recordThread s nm v)
            (s.valid && decide (toUSize v ≤ dimLimit lim nm))))
    ∧ (∀ (lim : Limits) (s : VState) (i : Nat) (nm : String) (v : Int),
        nm ∈ s.visited_threads →
        attrStep lim .thread_extent (.IterVar i nm) (.IntImm v) s = .ok s)
    ∧ VerifyGPUCode dupKernel [("max_thread_x", .IntImm 16)] = .ok true
    ∧ VerifyGPUCode dupKernelDiff [("max_thread_x", .IntImm 16)] = .ok true := by
  refine ⟨?_, ?_, ?_, by decide, by decide⟩
  · intro lim s i1 i2 nm v1 v2 body
    simp only [visit_Attr, attrStep]
    rw [threadExtentStep_idem]
  · intro lim s i nm v c1 c2
    obtain ⟨nl, lb, sb, vt, lm, sm, tp, vv⟩ := s
    simp only [attrStep]
    rcases c1 with hx | hy | hz
    · subst hx
      simp [threadExtentStep, c2, setValid, recordThread, dimLimit]
    · subst hy
      simp [threadExtentStep, c2, setValid, recordThread, dimLimit]
    · subst hz
      simp [threadExtentStep, c2, setValid, recordThread, dimLimit]
  · intro lim s i nm v h
    simp only [attrStep]
    by_cases c1 : nm = "threadIdx.x" ∨ nm = "threadIdx.y" ∨ nm = "threadIdx.z"
    · simp [threadExtentStep, c1, h]
    · simp [threadExtentStep, c1]

/-- C3 witness: the first-declaration conjunct applied at a concrete
`threadIdx.x` annotation from the reset state. -/
theorem C3_thread_once_witness :
    attrStep (mkLimits 9 9 9 9 9 9) .thread_extent (.IterVar 0 "threadIdx.x")
      (.IntImm 5) initState =
      .ok (setValid (recordThread initState ("threadIdx.x") 5)
        (initState.valid &&
          decide (toUSize 5 ≤ dimLimit (mkLimits 9 9 9 9 9 9) "threadIdx.x"))) :=
  C3_thread_once.2.1 (mkLimits 9 9 9 9 9 9) initState 0 "threadIdx.x" 5
    (Or.inl rfl) (by decide)

/-- C4: an allocation node recurses into its subtree first, then adds
element count times byte width to the local counter when its variable is in
the local set at that moment, else to the shared counter when in the shared
set, else to neither; the accounting never changes the verdict flag itself;
a shared 1024-element 4-byte buffer fails under shared limit 4095 and passes
under 4096. -/
theorem C4_alloc_postorder :
    (∀ (lim : Limits) (buf tb : Nat) (cs : Int) (body : Stmt) (s s' : VState),
      visit lim body s = .ok s' →
      visit lim (.Allocate buf tb cs body) s =
        .ok (if some buf ∈ s'.visited_local_buffers then
            { s' with local_memory_per_block := uadd s'.local_memory_per_block (umul (toUSize cs) tb) }
          else if some buf ∈ s'.visited_shared_buffers then
            { s' with shared_memory_per_block := uadd s'.shared_memory_per_block (umul (toUSize cs) tb) }
          else s'))
    ∧ (∀ (buf tb : Nat) (cs : Int) (s : VState), (allocStep buf tb cs s).valid = s.valid)
    ∧ VerifyGPUCode sharedAllocKernel
        [("max_shared_memory_per_block", .IntImm 4095)] = .ok false
    ∧ VerifyGPUCode sharedAllocKernel
        [("max_shared_memory_per_block", .IntImm 4096)] = .ok true := by
  refine ⟨?_, allocStep_valid, by decide, by decide⟩
  intro lim buf tb cs body s s' h
  rw [visit_Allocate, h]
  rfl

/-- C4 witness: the accounting conjunct applied to a concrete unclassified
allocation over an empty body. -/
theorem C4_alloc_postorder_witness :
    visit (mkLimits 1 1 1 1 1 1) (.Allocate 0 4 7 .Evaluate) initState =
      .ok (if some 0 ∈ initState.visited_local_buffers then
          { initState with local_memory_per_block := uadd initState.local_memory_per_block (umul (toUSize 7) 4) }
        else if some 0 ∈ initState.visited_shared_buffers then
          { initState with shared_memory_per_block := uadd initState.shared_memory_per_block (umul (toUSize 7) 4) }
        else initState) :=
  C4_alloc_postorder.1 (mkLimits 1 1 1 1 1 1) 0 4 7 .Evaluate initState initState rfl

/-- C5: entering a kernel-region marker at nest depth 0 resets the
accountant state exactly (classification sets and thread-name set cleared,
memory counters zeroed, thread product set to 1), so the traversal of a
top-level kernel region depends only on the incoming nest level and verdict,
never on leaked classifications or counters; two sibling regions, one
violating and one compliant, give overall verdict false while the compliant
region alone verifies. -/
theorem C5_region_isolation :
    (∀ s : VState, Reset_ s =
      { s with
        visited_local_buffers := ([] : List (Option Nat))
        visited_shared_buffers := ([] : List (Option Nat))
        local_memory_per_block := 0
        shared_memory_per_block := 0
        visited_threads := ([] : List String)
        thread_per_block := 1 })
    ∧ (∀ (lim : Limits) (p : Bool) (body : Stmt) (s1 s2 : VState),
        s1.nest_level = 0 → s2.nest_level = 0 → s1.valid = s2.valid →
        visit lim (.ProducerConsumer p body) s1 = visit lim (.ProducerConsumer p body) s2)
    ∧ Verify compliantKernel 1 1 8 8 1 1 = .ok true
    ∧ Verify siblingKernels 1 1 8 8 1 1 = .ok false := by
  exact ⟨fun s => rfl,
    fun lim p body s1 s2 h1 h2 hv => visit_PC_congr lim p body s1 s2 h1 h2 hv,
    by decide, by decide⟩

/-- C5 witness: the no-leak conjunct applied to two concrete states that
differ in classifications and counters but agree on nest level and
verdict. -/
theorem C5_region_isolation_witness :
    visit (mkLimits 1 1 1 1 1 1) (.ProducerConsumer true .Evaluate) initState =
      visit (mkLimits 1 1 1 1 1 1) (.ProducerConsumer true .Evaluate)
        ⟨0, [some 3], [none], ["threadIdx.x"], 5, 7, 999, true⟩ :=
  C5_region_isolation.2.1 (mkLimits 1 1 1 1 1 1) true .Evaluate initState
    ⟨0, [some 3], [none], ["threadIdx.x"], 5, 7, 999, true⟩ rfl rfl rfl

/-- C10 witness: the non-string conjunct applied at a concrete annotation. -/
theorem C10_scope_value_deref_witness :
    visit (mkLimits 1 1 1 1 1 1)
      (.AttrStmt .storage_scope (.Variable 0) .OtherExpr .Evaluate) initState =
      .error .nullDeref :=
  C10_scope_value_deref.2 (mkLimits 1 1 1 1 1 1) (.Variable 0) .OtherExpr .Evaluate
    initState rfl

end TVM
